import Mathlib

/-!
Verification development for the redact-check PDF forensics pipeline.

The TypeScript source is embedded shallowly:
* JavaScript numbers are modelled as exact rationals (`ℚ`).  All numeric
  literals of the source (`0.15`, `0.6`, `0.0005`, `1.5`, …) are dyadic or
  small decimal fractions, so the idealisation only ignores binary64
  rounding noise, never the algorithm.  `NaN` is modelled explicitly
  (as `Option ℚ`) in the one place it can arise (hex colour parsing).
* The pdf.js operator list entries (`argsArray[i]`, untyped JavaScript
  values) are modelled by the inductive `JsVal`; a `Float32Array` is an
  array of numbers for the purposes of the source's checks.
* The pdf.js `PageViewport` at `scale: 1.5`, rotation 0 and media box
  `[0, 0, W, H]` maps a user-space point `(x, y)` to device space
  `(1.5·x, 1.5·(H − y))`; `viewport.width = 1.5·W`,
  `viewport.height = 1.5·H`.  (Spec §3: "a viewport scale of 1.5 is
  applied uniformly"; pdf.js is a third-party library, modelled from its
  documented behaviour.)
-/

namespace RedactCheck

/-- An untyped JavaScript value, as far as `detectDarkRects` inspects it.
`num` carries finite numbers; a `Float32Array` is modelled as `arr` of
`num`s (the source treats both identically via
`args[2] instanceof Float32Array || Array.isArray(args[2])`). -/
inductive JsVal where
  | num (q : ℚ)
  | str (s : String)
  | arr (xs : List JsVal)
  | other
deriving Repr

/-- Device-space rectangle, `src/src/test/setup.ts` type `Rect`. -/
structure Rect where
  x : ℚ
  y : ℚ
  w : ℚ
  h : ℚ
  area : ℚ
deriving Repr, DecidableEq

/-- `viewport.width` for a page with user-space width `W` at scale 1.5. -/
def vpWidth (W : ℚ) : ℚ := (3 / 2) * W

/-- `viewport.height` for a page with user-space height `H` at scale 1.5. -/
def vpHeight (H : ℚ) : ℚ := (3 / 2) * H

/-- `viewport.width * viewport.height`, the device-space page area used by
both `detectDarkRects` and `scoreAndRisk`. -/
def pageAreaQ (W H : ℚ) : ℚ := vpWidth W * vpHeight H

/-- `viewport.convertToViewportRectangle([x1, y1, x2, y2])`: the page
transform `[1.5, 0, 0, -1.5, 0, 1.5·H]` applied to both corner points. -/
def convertToViewportRectangle (H x1 y1 x2 y2 : ℚ) : ℚ × ℚ × ℚ × ℚ :=
  ((3 / 2) * x1, (3 / 2) * (H - y1), (3 / 2) * x2, (3 / 2) * (H - y2))

/-- `isNearBlackRGB` of the source, lifted to possibly-`NaN` channels
(`none` = `NaN`, and every comparison with `NaN` is false in JS). -/
def isNearBlackRGBJ (r g b : Option ℚ) : Bool :=
  (match r with | some v => decide (v ≤ 3 / 20) | none => false) &&
  (match g with | some v => decide (v ≤ 3 / 20) | none => false) &&
  (match b with | some v => decide (v ≤ 3 / 20) | none => false)

/-- `isNearBlackGray` of the source. -/
def isNearBlackGray (g : ℚ) : Bool := decide (g ≤ 3 / 20)

/-- Mutable state of the `detectDarkRects` loop: fill colour state and the
current translation extracted from pure-translation transform matrices. -/
structure DetectState where
  fillRGB : Option (Option ℚ × Option ℚ × Option ℚ)
  fillGray : Option ℚ
  tx : ℚ
  ty : ℚ
deriving Repr, DecidableEq

/-- Initial state: `fillRGB = null`, `fillGray = null`,
`currentTransform = { x: 0, y: 0 }`. -/
def initDetectState : DetectState := ⟨none, none, 0, 0⟩

/-- The `dark` test of the source:
`(fillRGB && isNearBlackRGB(...)) || (fillGray !== null && isNearBlackGray(fillGray))`. -/
def isDark (st : DetectState) : Bool :=
  (match st.fillRGB with
   | some (r, g, b) => isNearBlackRGBJ r g b
   | none => false) ||
  (match st.fillGray with
   | some g => isNearBlackGray g
   | none => false)

/-- Extract the rationals of a list of `JsVal`s if all entries are numbers
(used for the `args.every((x) => typeof x === "number")` checks). -/
def allNums : List JsVal → Option (List ℚ)
  | [] => some []
  | JsVal.num q :: rest => (allNums rest).map (q :: ·)
  | _ => none

/-- Keep the numeric entries of a coordinates candidate
(`Array.from(coordsArray).filter((x) => typeof x === "number")`). -/
def filterNums (xs : List JsVal) : List ℚ :=
  xs.filterMap fun v => match v with | JsVal.num q => some q | _ => none

/-- Transform tracking: a 6-number argument array `[a,b,c,d,e,f]` that is
not the identity and is a pure translation `[1,0,0,1,tx,ty]` updates
`currentTransform`; anything else leaves the state unchanged. -/
def stepTransform (st : DetectState) (args : JsVal) : DetectState :=
  match args with
  | JsVal.arr xs =>
    match allNums xs with
    | some [a, b, c, d, e, f] =>
      if a = 1 ∧ b = 0 ∧ c = 0 ∧ d = 1 ∧ e = 0 ∧ f = 0 then st
      else if a = 1 ∧ b = 0 ∧ c = 0 ∧ d = 1 then { st with tx := e, ty := f }
      else st
    | _ => st
  | _ => st

/-- A hexadecimal digit value. -/
def hexDigitVal (c : Char) : Option Nat :=
  if '0' ≤ c ∧ c ≤ '9' then some (c.toNat - '0'.toNat)
  else if 'a' ≤ c ∧ c ≤ 'f' then some (c.toNat - 'a'.toNat + 10)
  else if 'A' ≤ c ∧ c ≤ 'F' then some (c.toNat - 'A'.toNat + 10)
  else none

/-- Longest hex-digit run at the head of the list, with its value. -/
def hexRun : List Char → Nat → Nat × Nat
  | [], acc => (acc, 0)
  | c :: cs, acc =>
    match hexDigitVal c with
    | some d =>
      let (v, n) := hexRun cs (acc * 16 + d)
      (v, n + 1)
    | none => (acc, 0)

/-- JavaScript whitespace as skipped by `parseInt`. -/
def jsTrimWs (c : Char) : Bool :=
  c = ' ' ∨ c = '\t' ∨ c = '\n' ∨ c = '\r' ∨ c.toNat = 11 ∨ c.toNat = 12 ∨
  c.toNat = 0xA0 ∨ c.toNat = 0xFEFF

/-- `parseInt(s, 16)`: skip whitespace, optional sign, optional `0x`/`0X`
prefix, then the longest hex-digit prefix; `none` models `NaN`. -/
def parseIntHex (cs : List Char) : Option ℤ :=
  let cs := cs.dropWhile jsTrimWs
  let (neg, cs) :=
    match cs with
    | '-' :: rest => (true, rest)
    | '+' :: rest => (false, rest)
    | _ => (false, cs)
  let cs :=
    match cs with
    | '0' :: 'x' :: rest => rest
    | '0' :: 'X' :: rest => rest
    | _ => cs
  let (v, n) := hexRun cs 0
  if n = 0 then none
  else some (if neg then -(v : ℤ) else (v : ℤ))

/-- `s.slice(a, b)` on the code-unit list of a string. -/
def jsSlice (cs : List Char) (a b : Nat) : List Char := (cs.drop a).take (b - a)

/-- One colour channel of the `"#RRGGBB"` branch:
`parseInt(hex.slice(a, b), 16) / 255` (`none` = `NaN`). -/
def hexChannel (cs : List Char) (a b : Nat) : Option ℚ :=
  (parseIntHex (jsSlice cs a b)).map fun v => (v : ℚ) / 255

/-- Fill-colour tracking: 3-number array sets `fillRGB`; 1-number array
sets `fillGray`; a single string starting with `#` is parsed as
`#RRGGBB`.  Each setter clears the other colour state. -/
def stepColor (st : DetectState) (args : JsVal) : DetectState :=
  match args with
  | JsVal.arr [JsVal.num r, JsVal.num g, JsVal.num b] =>
    { st with fillRGB := some (some r, some g, some b), fillGray := none }
  | JsVal.arr [JsVal.num g] =>
    { st with fillGray := some g, fillRGB := none }
  | JsVal.arr [JsVal.str s] =>
    if s.startsWith "#" then
      let cs := s.toList
      { st with
        fillRGB := some (hexChannel cs 1 3, hexChannel cs 3 5, hexChannel cs 5 7),
        fillGray := none }
    else st
  | _ => st

/-- Coordinates candidate: `args[1]` if it is an array of length ≥ 4,
else `args[2]` if it is an array (or `Float32Array`) of length ≥ 4. -/
def coordsCandidate (args : JsVal) : Option (List JsVal) :=
  match args with
  | JsVal.arr xs =>
    match xs.get? 1 with
    | some (JsVal.arr ys) =>
      if 4 ≤ ys.length then some ys
      else fallback xs
    | _ => fallback xs
  | _ => none
where
  /-- The `args[2]` fallback branch. -/
  fallback (xs : List JsVal) : Option (List JsVal) :=
    match xs.get? 2 with
    | some (JsVal.arr zs) => if 4 ≤ zs.length ∧ 3 ≤ xs.length then some zs else none
    | _ => none

/-- Walk a numeric list in complete groups of four
(`for (let k = 0; k + 3 < nums.length; k += 4)`). -/
def groupsOf4 : List ℚ → List (ℚ × ℚ × ℚ × ℚ)
  | a :: b :: c :: d :: rest => (a, b, c, d) :: groupsOf4 rest
  | _ => []

/-- Coordinate-format detection, before the translation is applied:
`(n0,n1,n2,n3)` is reinterpreted as corner pair `(x1,y1,x2,y2)` exactly
when `n2 > n0 && n3 > n1 && n2 < 10000 && n3 < 10000`. -/
def normalizeGroup (g : ℚ × ℚ × ℚ × ℚ) : ℚ × ℚ × ℚ × ℚ :=
  let (x, y, w, h) := g
  if w > x ∧ h > y ∧ w < 10000 ∧ h < 10000 then (x, y, w - x, h - y) else g

/-- Format detection followed by the translation of the origin
(`x += currentTransform.x; y += currentTransform.y`). -/
def groupNormTrans (st : DetectState) (g : ℚ × ℚ × ℚ × ℚ) : ℚ × ℚ × ℚ × ℚ :=
  let (x, y, w, h) := normalizeGroup g
  (x + st.tx, y + st.ty, w, h)

/-- The device-space rectangle a group would produce: absolute sides,
projection of `(x, y, x+|w|, y+|h|)` through the viewport, normalisation
to top-left origin. -/
def groupCandidate (H : ℚ) (st : DetectState) (g : ℚ × ℚ × ℚ × ℚ) : Rect :=
  let (x, y, w, h) := groupNormTrans st g
  let aw := |w|
  let ah := |h|
  let (vx1, vy1, vx2, vy2) := convertToViewportRectangle H x y (x + aw) (y + ah)
  let vx := min vx1 vx2
  let vy := min vy1 vy2
  let vw := |vx2 - vx1|
  let vh := |vy2 - vy1|
  ⟨vx, vy, vw, vh, vw * vh⟩

/-- One 4-number group of `detectDarkRects`: `none` when any filter
(`aw < 5 || ah < 5`, darkness, background `areaRatio > 0.6`, speck
`varea < max(pageArea * 0.0005, 2000)`) rejects it. -/
def groupToRect (W H : ℚ) (st : DetectState) (g : ℚ × ℚ × ℚ × ℚ) : Option Rect :=
  if |(groupNormTrans st g).2.2.1| < 5 ∨ |(groupNormTrans st g).2.2.2| < 5 then none
  else if ¬ isDark st = true then none
  else
    let r := groupCandidate H st g
    if r.area / pageAreaQ W H > 3 / 5 then none
    else if r.area < max (pageAreaQ W H * (1 / 2000)) 2000 then none
    else some r

/-- Rectangles contributed by one operator's arguments (empty unless a
coordinates candidate is present). -/
def stepCoords (W H : ℚ) (st : DetectState) (args : JsVal) : List Rect :=
  match coordsCandidate args with
  | some cand => (groupsOf4 (filterNums cand)).filterMap (groupToRect W H st)
  | none => []

/-- One iteration of the `detectDarkRects` loop body: transform tracking,
then colour tracking, then path-coordinate handling (the three sections
run in this order on the same `args`). -/
def detectStep (W H : ℚ) (st : DetectState) (args : JsVal) : DetectState × List Rect :=
  let st1 := stepTransform st args
  let st2 := stepColor st1 args
  (st2, stepCoords W H st2 args)

/-- The whole loop over `argsArray` (the source iterates `fnArray` indices
but reads only `argsArray[i]`). -/
def runDetect (W H : ℚ) : List JsVal → DetectState → List Rect
  | [], _ => []
  | a :: rest, st =>
    let (st', rs) := detectStep W H st a
    rs ++ runDetect W H rest st'

/-- The dedup key `${Math.round(x)}:${Math.round(y)}:${Math.round(w)}:${Math.round(h)}`;
JavaScript `Math.round` is `⌊x + 1/2⌋`, which is Mathlib's `round`. -/
def rectKey (r : Rect) : ℤ × ℤ × ℤ × ℤ := (round r.x, round r.y, round r.w, round r.h)

/-- The de-dupe pass keyed by `rectKey`. -/
def dedupRects : List Rect → List (ℤ × ℤ × ℤ × ℤ) → List Rect
  | [], _ => []
  | r :: rs, seen =>
    if rectKey r ∈ seen then dedupRects rs seen
    else r :: dedupRects rs (rectKey r :: seen)

/-- `detectDarkRects(page, viewport)` for a page with user-space media box
`[0, 0, W, H]` and the viewport at scale 1.5, with `argsArray = args`. -/
def detectDarkRects (W H : ℚ) (args : List JsVal) : List Rect :=
  dedupRects (runDetect W H args initDetectState) []

/-! ## Risk scorer (`scoreAndRisk`) -/

/-- The binary `Risk` verdict (type `Risk` after the binary migration). -/
inductive Risk where
  | flagged
  | none
deriving Repr, DecidableEq

/-- `clamp(n, lo, hi) = Math.max(lo, Math.min(hi, n))`. -/
def clampI (n lo hi : ℤ) : ℤ := max lo (min hi n)

/-- Axis-aligned box for text geometry / overlap testing. -/
structure Box where
  x : ℚ
  y : ℚ
  w : ℚ
  h : ℚ
deriving Repr, DecidableEq

/-- `intersect(a, b)`: strict positive width and height of the
intersection. -/
def intersectB (a b : Box) : Bool :=
  let x1 := max a.x b.x
  let y1 := max a.y b.y
  let x2 := min (a.x + a.w) (b.x + b.w)
  let y2 := min (a.y + a.h) (b.y + b.h)
  decide (x2 - x1 > 0) && decide (y2 - y1 > 0)

/-- The overlap test of `analyzePdf` (the labelled double loop over
`darkRects × textBoxes`; with either list empty the loop body never runs
and the flag stays `false`, which `List.any` reproduces). -/
def anyOverlap (rects : List Rect) (boxes : List Box) : Bool :=
  rects.any fun r => boxes.any fun t => intersectB ⟨r.x, r.y, r.w, r.h⟩ t

/-- Input record of `scoreAndRisk` (the viewport is carried as the
user-space page dimensions; `textChars` is present but unread). -/
structure ScoreParams where
  hasText : Bool
  textChars : Nat
  darkRects : List Rect
  overlapsTextLikely : Bool
  redactAnnots : Nat
  uw : ℚ
  uh : ℚ

/-- Output of `scoreAndRisk`. -/
structure ScoreResult where
  confidence : ℤ
  risk : Risk
  darkRectAreaRatio : ℚ
deriving Repr, DecidableEq

/-- `scoreAndRisk` of `src/src/test/setup.ts`: the additive score with its
six conditional contributions, clamped to `[0, 100]`, and the binary
verdict `flagged ⟺ score ≥ 20`. -/
def scoreAndRisk (p : ScoreParams) : ScoreResult :=
  let pageArea := pageAreaQ p.uw p.uh
  let darkRectAreaRatio := (p.darkRects.map Rect.area).sum / pageArea
  let s0 : ℤ := 0
  let s1 := if p.overlapsTextLikely then s0 + 40 else s0
  let s2 := if p.redactAnnots > 0 then s1 + 50 else s1
  let s3 := if 1 / 200 ≤ darkRectAreaRatio ∧ darkRectAreaRatio ≤ 1 / 5 then s2 + 15 else s2
  let s4 := if p.darkRects.any (fun r => decide (r.w / r.h ≥ 3) || decide (r.h / r.w ≥ 3))
            then s3 + 10 else s3
  let s5 := if ¬ p.hasText then s4 - 20 else s4
  let s6 := if p.darkRects.any (fun r => decide (r.area / pageArea > 3 / 5))
            then s5 - 30 else s5
  let score := clampI s6 0 100
  ⟨score, if score ≥ 20 then Risk.flagged else Risk.none, darkRectAreaRatio⟩

/-- The additive score exactly as the claim words it (C1): a sum of the
six signal contributions — +40 if any rectangle overlaps any text box,
+50 if at least one redact annotation, +15 for a moderate area ratio,
+10 for an elongated rectangle (aspect ≥ 3:1 either way), −20 without
text, −30 for a rectangle of more than 60% of the page area.  This is
the spec-side definition, to be compared with `scoreAndRisk`. -/
def specScore (hasText : Bool) (rects : List Rect) (boxes : List Box)
    (redact : Nat) (uw uh : ℚ) : ℤ :=
  let pageArea := pageAreaQ uw uh
  let ratio := (rects.map Rect.area).sum / pageArea
  (if ∃ r ∈ rects, ∃ t ∈ boxes,
      max r.x t.x < min (r.x + r.w) (t.x + t.w) ∧
      max r.y t.y < min (r.y + r.h) (t.y + t.h)
    then 40 else 0) +
  (if 1 ≤ redact then 50 else 0) +
  (if 1 / 200 ≤ ratio ∧ ratio ≤ 1 / 5 then 15 else 0) +
  (if ∃ r ∈ rects, 3 * r.h ≤ r.w ∨ 3 * r.w ≤ r.h then 10 else 0) +
  (if hasText then 0 else -20) +
  (if ∃ r ∈ rects, r.area > (3 / 5) * pageArea then -30 else 0)

/-- `scoreAndRisk` with the giant-rectangle penalty branch removed; used
to state claim C9, that the branch is unreachable on analyzer-produced
rectangle sets. -/
def scoreAndRiskNoGiant (p : ScoreParams) : ScoreResult :=
  let pageArea := pageAreaQ p.uw p.uh
  let darkRectAreaRatio := (p.darkRects.map Rect.area).sum / pageArea
  let s0 : ℤ := 0
  let s1 := if p.overlapsTextLikely then s0 + 40 else s0
  let s2 := if p.redactAnnots > 0 then s1 + 50 else s1
  let s3 := if 1 / 200 ≤ darkRectAreaRatio ∧ darkRectAreaRatio ≤ 1 / 5 then s2 + 15 else s2
  let s4 := if p.darkRects.any (fun r => decide (r.w / r.h ≥ 3) || decide (r.h / r.w ≥ 3))
            then s3 + 10 else s3
  let s5 := if ¬ p.hasText then s4 - 20 else s4
  let score := clampI s5 0 100
  ⟨score, if score ≥ 20 then Risk.flagged else Risk.none, darkRectAreaRatio⟩

/-! ## A JavaScript regular-expression engine for the overlay stripper

`stripCommonBlackRectFills` applies four JavaScript regexes with
`String.replace(re, fn)`.  The regexes use only: string literals,
single-character classes under `*`, `+` and `{0,n}` (all greedy), lazy
bounded group repetition `(?:…){0,n}?`, alternation, option `(…)?`,
lookahead `(?=…)`/`(?!…)`, the anchors `^`/`$` (no `m` flag: begin/end of
input) — captures are never consulted, so capture groups behave as plain
groups.  The engine below implements exactly these constructs with the
standard backtracking (leftmost match, left-first alternation,
longest-first greedy repetition, shortest-first lazy repetition) used by
JavaScript.  Strings are sequences of UTF-16 code units, modelled as
`List Nat` of code points (BMP-only content, which covers every operand
here).  The matcher is fueled so that it is structurally recursive and
kernel-computable; fuel is consumed only along the static nesting of
the pattern plus lazy unrollings, and `reFuel = 1000` exceeds the worst
nesting depth of the four patterns by a wide margin. -/

/-- Regular-expression abstract syntax (exactly the constructs used by
the four stripper patterns). -/
inductive RE where
  | eps
  | bos
  | eos
  | lit (s : List Nat)
  | cls (p : Nat → Bool)
  | seq (a b : RE)
  | alt (a b : RE)
  | opt (r : RE)
  | starC (p : Nat → Bool)
  | plusC (p : Nat → Bool)
  | repC (p : Nat → Bool) (n : Nat)
  | repLazy (r : RE) (n : Nat)
  | nla (r : RE)
  | la (r : RE)

/-- Code unit at a position. -/
def charAt (inp : List Nat) (pos : Nat) : Option Nat := inp.get? pos

/-- Does the literal `s` occur at `pos`? -/
def litAt (inp s : List Nat) (pos : Nat) : Bool := (inp.drop pos).take s.length == s

/-- Length of the maximal run of `p`-characters at the head. -/
def runLenGo (p : Nat → Bool) : List Nat → Nat
  | [] => 0
  | c :: cs => if p c then runLenGo p cs + 1 else 0

/-- Length of the maximal run of `p`-characters at `pos`. -/
def runLen (inp : List Nat) (p : Nat → Bool) (pos : Nat) : Nat :=
  runLenGo p (inp.drop pos)

/-- Greedy backtracking over a character run: try the continuation after
`j` characters, then `j-1`, …, then `0`. -/
def tryDown (k : Nat → Option Nat) (pos : Nat) : Nat → Option Nat
  | 0 => k pos
  | j + 1 =>
    match k (pos + (j + 1)) with
    | some e => some e
    | none => tryDown k pos j

/-- As `tryDown` but requiring at least one character (`+`). -/
def tryDown1 (k : Nat → Option Nat) (pos : Nat) : Nat → Option Nat
  | 0 => none
  | j + 1 =>
    match k (pos + (j + 1)) with
    | some e => some e
    | none => tryDown1 k pos j

/-- The backtracking matcher in continuation-passing style:
`mrun inp fuel r pos k` attempts to match `r` at `pos` and passes the
position after the match to `k`; the result is the end position of the
whole match (driven by the top-level continuation `some`). -/
def mrun (inp : List Nat) : Nat → RE → Nat → (Nat → Option Nat) → Option Nat
  | 0, _, _, _ => none
  | _ + 1, .eps, pos, k => k pos
  | _ + 1, .bos, pos, k => if pos = 0 then k pos else none
  | _ + 1, .eos, pos, k => if pos = inp.length then k pos else none
  | _ + 1, .lit s, pos, k => if litAt inp s pos then k (pos + s.length) else none
  | _ + 1, .cls p, pos, k =>
    match charAt inp pos with
    | some c => if p c then k (pos + 1) else none
    | none => none
  | f + 1, .seq a b, pos, k => mrun inp f a pos fun p1 => mrun inp f b p1 k
  | f + 1, .alt a b, pos, k =>
    match mrun inp f a pos k with
    | some e => some e
    | none => mrun inp f b pos k
  | f + 1, .opt r, pos, k =>
    match mrun inp f r pos k with
    | some e => some e
    | none => k pos
  | _ + 1, .starC p, pos, k => tryDown k pos (runLen inp p pos)
  | _ + 1, .plusC p, pos, k => tryDown1 k pos (runLen inp p pos)
  | _ + 1, .repC p n, pos, k => tryDown k pos (min (runLen inp p pos) n)
  | f + 1, .repLazy r n, pos, k =>
    match k pos with
    | some e => some e
    | none =>
      match n with
      | 0 => none
      | m + 1 => mrun inp f r pos fun p1 => mrun inp f (.repLazy r m) p1 k
  | f + 1, .nla r, pos, k =>
    match mrun inp f r pos some with
    | some _ => none
    | none => k pos
  | f + 1, .la r, pos, k =>
    match mrun inp f r pos some with
    | some _ => k pos
    | none => none

/-- Fuel for the matcher; far above the nesting depth of the four
patterns (≈ 500 in the worst case, see the section comment). -/
def reFuel : Nat := 1000

/-- The scan loop of `String.replace` with a global regex: find the
leftmost match from each position, substitute, continue after the match
(after an empty match, keep the character and advance one). -/
def scanGo (pat : RE) (repl : List Nat) (inp : List Nat) : Nat → Nat → List Nat × Nat
  | 0, pos => (inp.drop pos, 0)
  | f + 1, pos =>
    if inp.length ≤ pos then (inp.drop pos, 0)
    else
      match mrun inp reFuel pat pos some with
      | some e =>
        if pos < e then
          let (rest, c) := scanGo pat repl inp f e
          (repl ++ rest, c + 1)
        else
          let (rest, c) := scanGo pat repl inp f (pos + 1)
          (repl ++ (inp.drop pos).take 1 ++ rest, c + 1)
      | none =>
        let (rest, c) := scanGo pat repl inp f (pos + 1)
        ((inp.drop pos).take 1 ++ rest, c)

/-- `s.replace(re_g, () => repl)`, also counting the substitutions. -/
def replaceAll (pat : RE) (repl : List Nat) (inp : List Nat) : List Nat × Nat :=
  scanGo pat repl inp (inp.length + 1) 0

/-- `content.replace(/\r\n/g, "\n")`. -/
def normalizeCRLF : List Nat → List Nat
  | 13 :: 10 :: rest => 10 :: normalizeCRLF rest
  | c :: rest => c :: normalizeCRLF rest
  | [] => []

/-- Right-nested concatenation of a pattern list. -/
def cat : List RE → RE
  | [] => .eps
  | [r] => r
  | r :: rs => .seq r (cat rs)

/-- Code points of a string literal. -/
def cps (s : String) : List Nat := s.toList.map Char.toNat

/-- A string-literal pattern. -/
def litS (s : String) : RE := .lit (cps s)

/-- JavaScript `\s` (whitespace, including the Unicode space
separators). -/
def isJsSpace (c : Nat) : Bool :=
  c = 32 ∨ c = 9 ∨ c = 10 ∨ c = 11 ∨ c = 12 ∨ c = 13 ∨ c = 0xA0 ∨ c = 0x1680 ∨
  (0x2000 ≤ c ∧ c ≤ 0x200A) ∨ c = 0x2028 ∨ c = 0x2029 ∨ c = 0x202F ∨ c = 0x205F ∨
  c = 0x3000 ∨ c = 0xFEFF

/-- JavaScript `\d`. -/
def isDigitCp (c : Nat) : Bool := 48 ≤ c ∧ c ≤ 57

/-- JavaScript `[^\n]`. -/
def notNl (c : Nat) : Bool := c ≠ 10

/-- The character `0` (for `(\.0+)?`). -/
def isZeroCp (c : Nat) : Bool := c = 48

/-- `\s*`. -/
def wsS : RE := .starC isJsSpace

/-- `\s+`. -/
def wsP : RE := .plusC isJsSpace

/-- `0(\.0+)?`. -/
def zeroTok : RE := .seq (litS "0") (.opt (.seq (litS ".") (.plusC isZeroCp)))

/-- `(-?\d+(\.\d+)?)`. -/
def numSigned : RE :=
  cat [.opt (litS "-"), .plusC isDigitCp, .opt (.seq (litS ".") (.plusC isDigitCp))]

/-- `(\d+(\.\d+)?)`. -/
def numUnsigned : RE := .seq (.plusC isDigitCp) (.opt (.seq (litS ".") (.plusC isDigitCp)))

/-- `(?:[^\n]{0,200}\n){0,6}?` — the bounded intermediate lines of
patterns A and B. -/
def grpAB : RE := .repLazy (.seq (.repC notNl 200) (litS "\n")) 6

/-- `(?:(?!BT)[^\n]{0,200}\n){0,15}?` — the guarded intermediate lines of
patterns C and D. -/
def grpCD : RE := .repLazy (cat [.nla (litS "BT"), .repC notNl 200, litS "\n"]) 15

/-- `(?:^|\n)`. -/
def anchorRE : RE := .alt .bos (litS "\n")

/-- `(?=\n|$)`. -/
def tailLook : RE := .la (.alt (litS "\n") .eos)

/-- `(f|f\*|B|B\*)`. -/
def fillOp : RE := .alt (litS "f") (.alt (litS "f*") (.alt (litS "B") (litS "B*")))

/-- Pattern A:
`(?:^|\n)\s*0(\.0+)?\s+0(\.0+)?\s+0(\.0+)?\s+rg\s*\n(?:[^\n]{0,200}\n){0,6}?\s*(-?\d+(\.\d+)?)\s+(-?\d+(\.\d+)?)\s+(\d+(\.\d+)?)\s+(\d+(\.\d+)?)\s+re\s*\n\s*(f|f\*|B|B\*)\s*(?=\n|$)`. -/
def patternA : RE :=
  cat [anchorRE, wsS, zeroTok, wsP, zeroTok, wsP, zeroTok, wsP, litS "rg", wsS, litS "\n",
    grpAB, wsS, numSigned, wsP, numSigned, wsP, numUnsigned, wsP, numUnsigned, wsP,
    litS "re", wsS, litS "\n", wsS, fillOp, wsS, tailLook]

/-- Pattern B: as A but opening with `0(\.0+)?\s+g`. -/
def patternB : RE :=
  cat [anchorRE, wsS, zeroTok, wsP, litS "g", wsS, litS "\n",
    grpAB, wsS, numSigned, wsP, numSigned, wsP, numUnsigned, wsP, numUnsigned, wsP,
    litS "re", wsS, litS "\n", wsS, fillOp, wsS, tailLook]

/-- Pattern C:
`(?:^|\n)q\s*\n(?:(?!BT)[^\n]{0,200}\n){0,15}?\s*0(\.0+)?\s+0(\.0+)?\s+0(\.0+)?\s+rg\s*\n(?:(?!BT)[^\n]{0,200}\n){0,15}?\s*(-?\d+(\.\d+)?)\s+(-?\d+(\.\d+)?)\s+m\s*\n(?:(?!BT)[^\n]{0,200}\n){0,15}?\s*h\s*\n\s*f\s*\n\s*Q\s*(?=\n|$)`. -/
def patternC : RE :=
  cat [anchorRE, litS "q", wsS, litS "\n", grpCD, wsS, zeroTok, wsP, zeroTok, wsP, zeroTok,
    wsP, litS "rg", wsS, litS "\n", grpCD, wsS, numSigned, wsP, numSigned, wsP, litS "m",
    wsS, litS "\n", grpCD, wsS, litS "h", wsS, litS "\n", wsS, litS "f", wsS, litS "\n",
    wsS, litS "Q", wsS, tailLook]

/-- Pattern D: as C but with gray fill `0(\.0+)?\s+g`. -/
def patternD : RE :=
  cat [anchorRE, litS "q", wsS, litS "\n", grpCD, wsS, zeroTok, wsP, litS "g",
    wsS, litS "\n", grpCD, wsS, numSigned, wsP, numSigned, wsP, litS "m",
    wsS, litS "\n", grpCD, wsS, litS "h", wsS, litS "\n", wsS, litS "f", wsS, litS "\n",
    wsS, litS "Q", wsS, tailLook]

/-- Replacement for patterns A and B. -/
def replFill : List Nat := cps "\n% stripped_suspected_black_rect_fill\n"

/-- Replacement for patterns C and D. -/
def replFillPath : List Nat := cps "\n% stripped_suspected_black_rect_fill_path\n"

/-- `stripCommonBlackRectFills(content)`: normalise line breaks, apply the
four patterns in order, return the rewritten text and the number of
substitutions. -/
def stripCommonBlackRectFills (content : List Nat) : List Nat × Nat :=
  let src := normalizeCRLF content
  let ra := replaceAll patternA replFill src
  let rb := replaceAll patternB replFill ra.1
  let rc := replaceAll patternC replFillPath rb.1
  let rd := replaceAll patternD replFillPath rc.1
  (rd.1, ra.2 + rb.2 + rc.2 + rd.2)

/-- Does `needle` occur as a contiguous run anywhere in `hay`? -/
def hasSub (hay needle : List Nat) : Bool :=
  match hay with
  | [] => needle == []
  | _ :: rest => (hay.take needle.length == needle) || hasSub rest needle

/-! ## UTF-8 decoding and encoding

`cleanPdf` and the entry-point validation decode bytes with
`new TextDecoder("utf-8", { fatal: false })` and re-encode with
`new TextEncoder()`.  `decodeUtf8` implements UTF-8 decoding with
U+FFFD replacement on malformed sequences (resuming at the byte that
failed validation), `encodeUtf8` the standard encoder.  Code points are
`Nat`s. -/

/-- Is `b` a UTF-8 continuation byte (`0x80–0xBF`)? -/
def isCont (b : Nat) : Bool := 0x80 ≤ b ∧ b ≤ 0xBF

/-- The replacement character U+FFFD. -/
def repl : Nat := 0xFFFD

/-- Valid range of the second byte of a 3-byte sequence, per lead byte
(excludes overlong encodings and surrogates). -/
def valid3Second (b1 b2 : Nat) : Bool :=
  if b1 = 0xE0 then 0xA0 ≤ b2 ∧ b2 ≤ 0xBF
  else if b1 = 0xED then 0x80 ≤ b2 ∧ b2 ≤ 0x9F
  else isCont b2

/-- Valid range of the second byte of a 4-byte sequence, per lead byte. -/
def valid4Second (b1 b2 : Nat) : Bool :=
  if b1 = 0xF0 then 0x90 ≤ b2 ∧ b2 ≤ 0xBF
  else if b1 = 0xF4 then 0x80 ≤ b2 ∧ b2 ≤ 0x8F
  else isCont b2

/-- UTF-8 decoding with replacement (the WHATWG decoder as used by
`TextDecoder` with `fatal: false`); on a malformed sequence one U+FFFD
is emitted and decoding resumes at the offending byte.  Fueled (one unit
per emitted code point, and every code point consumes at least one byte)
so that the recursion is structural and kernel-computable. -/
def decodeUtf8Go : Nat → List Nat → List Nat
  | 0, _ => []
  | _ + 1, [] => []
  | f + 1, b :: bs =>
    if b < 0x80 then b :: decodeUtf8Go f bs
    else if 0xC2 ≤ b ∧ b ≤ 0xDF then
      match bs with
      | [] => [repl]
      | b2 :: bs2 =>
        if isCont b2 then ((b - 0xC0) * 0x40 + (b2 - 0x80)) :: decodeUtf8Go f bs2
        else repl :: decodeUtf8Go f bs
    else if 0xE0 ≤ b ∧ b ≤ 0xEF then
      match bs with
      | [] => [repl]
      | b2 :: bs2 =>
        if valid3Second b b2 then
          match bs2 with
          | [] => [repl]
          | b3 :: bs3 =>
            if isCont b3 then
              ((b - 0xE0) * 0x1000 + (b2 - 0x80) * 0x40 + (b3 - 0x80)) :: decodeUtf8Go f bs3
            else repl :: decodeUtf8Go f bs2
        else repl :: decodeUtf8Go f bs
    else if 0xF0 ≤ b ∧ b ≤ 0xF4 then
      match bs with
      | [] => [repl]
      | b2 :: bs2 =>
        if valid4Second b b2 then
          match bs2 with
          | [] => [repl]
          | b3 :: bs3 =>
            if isCont b3 then
              match bs3 with
              | [] => [repl]
              | b4 :: bs4 =>
                if isCont b4 then
                  ((b - 0xF0) * 0x40000 + (b2 - 0x80) * 0x1000 + (b3 - 0x80) * 0x40 +
                    (b4 - 0x80)) :: decodeUtf8Go f bs4
                else repl :: decodeUtf8Go f bs3
            else repl :: decodeUtf8Go f bs2
        else repl :: decodeUtf8Go f bs
    else repl :: decodeUtf8Go f bs

/-- `new TextDecoder("utf-8", { fatal: false }).decode(bs)`. -/
def decodeUtf8 (bs : List Nat) : List Nat := decodeUtf8Go bs.length bs

/-- UTF-8 encoding of one scalar value. -/
def encodeChar (n : Nat) : List Nat :=
  if n < 0x80 then [n]
  else if n < 0x800 then [0xC0 + n / 0x40, 0x80 + n % 0x40]
  else if n < 0x10000 then
    [0xE0 + n / 0x1000, 0x80 + (n / 0x40) % 0x40, 0x80 + n % 0x40]
  else
    [0xF0 + n / 0x40000, 0x80 + (n / 0x1000) % 0x40, 0x80 + (n / 0x40) % 0x40,
     0x80 + n % 0x40]

/-- `new TextEncoder().encode(s)`. -/
def encodeUtf8 (cs : List Nat) : List Nat := (cs.map encodeChar).join

/-- The five magic code points (equivalently bytes) of `"%PDF-"`. -/
def pdfMagic : List Nat := cps "%PDF-"

/-! ## Analyzer entry-point validation (C4) -/

/-- `s.startsWith(pre)`. -/
def startsWithCP (s pre : List Nat) : Bool := s.take pre.length == pre

/-- The validation prologue of `processJob` (`App.tsx`), in front of
`analyzePdf`: reject empty input (`EmptyInput`, message "File is
empty"), then reject a missing `%PDF-` prefix (`MalformedPdf`, message
"Not a valid PDF (missing header)") by decoding the first five bytes and
testing `startsWith("%PDF-")`; otherwise hand the bytes to the analyzer
(abstracted as `analyze`). -/
def processAnalyze {α : Type} (analyze : List Nat → Except String α)
    (bytes : List Nat) : Except String α :=
  if bytes.length = 0 then .error "File is empty"
  else if ¬ startsWithCP (decodeUtf8 (bytes.take 5)) pdfMagic then
    .error "Not a valid PDF (missing header)"
  else analyze bytes

/-! ## The cleaner (`cleanPdf`)

`cleanPdf` drives pdf-lib (parse, object graph, serialize) and pako
(inflate).  Those third-party libraries are abstracted as the record
`PdfLib` of pure functions together with a document model carrying
exactly the structure `cleanPdf` reads and writes: pages with an
`Annots` presence flag and a `Contents` entry that is absent, a single
object, or an array of objects (an object that is not a stream —
`!stream?.getContents` — is `none`; `PDFRef` indirection is resolved by
the model's `StreamObj` being the looked-up stream). -/

/-- A content stream object: its `Filter` dictionary entry (as the
string pdf-lib prints, e.g. `"/FlateDecode"`), its `Length` entry, and
its raw bytes. -/
structure StreamObj where
  filter : Option String
  lengthEntry : Option Nat
  raw : List Nat
deriving Repr, DecidableEq

/-- A page's `Contents` entry. -/
inductive ContentsEntry where
  | noContents
  | single (o : Option StreamObj)
  | arr (os : List (Option StreamObj))
deriving Repr, DecidableEq

/-- A page node: whether it has an `Annots` entry, and its contents. -/
structure PageM where
  hasAnnots : Bool
  contents : ContentsEntry
deriving Repr, DecidableEq

/-- A parsed document. -/
structure DocM where
  pages : List PageM
deriving Repr, DecidableEq

/-- The third-party capability: `PDFDocument.load` (`parse`, `none` for
a rejected file), `pako.inflate` (`none` when it throws), and
`PDFDocument.save` with `useObjectStreams: true` (`save`). -/
structure PdfLib where
  parse : List Nat → Option DocM
  inflate : List Nat → Option (List Nat)
  save : DocM → List Nat

/-- The only audit fields `cleanPdf` reads:
`audit.pages[i]?.signals.redact_annots`. -/
structure PageSignalsM where
  redact_annots : Nat
deriving Repr, DecidableEq

/-- Per-page audit record (restricted to what `cleanPdf` reads). -/
structure PageAuditM where
  signals : PageSignalsM
deriving Repr, DecidableEq

/-- Audit log (restricted to what `cleanPdf` reads). -/
structure AuditLogM where
  pages : List PageAuditM
deriving Repr, DecidableEq

/-- The actions summary of the cleaner. -/
structure CleanSummary where
  removed_redact_annots_estimate : Nat
  removed_annots_pages : Nat
  removed_overlay_ops_estimate : Nat
  note : String
deriving Repr, DecidableEq

/-- The fixed `note` string. -/
def cleanNote : String :=
  "Overlay removal is heuristic; verify output pages listed in the audit."

/-- The per-byte count of `isProbablyContentStreamText`: tab, newline,
carriage return, or printable ASCII 32–126. -/
def asciiCount : List Nat → Nat
  | [] => 0
  | b :: rest =>
    (if b = 10 ∨ b = 13 ∨ b = 9 then 1 else if 32 ≤ b ∧ b ≤ 126 then 1 else 0) +
      asciiCount rest

/-- `isProbablyContentStreamText`: strictly more than 70% qualifying
bytes (`ascii / Math.max(1, length) > 0.7`). -/
def isProbablyContentStreamText (bs : List Nat) : Bool :=
  decide ((asciiCount bs : ℚ) / (max 1 bs.length : ℚ) > 7 / 10)

/-- The zlib magic test: `raw[0] = 0x78` and
`raw[1] ∈ {0x9C, 0x01, 0xDA}` (with `raw.length ≥ 2`). -/
def zlibMagic : List Nat → Bool
  | b0 :: b1 :: _ => b0 = 0x78 ∧ (b1 = 0x9C ∨ b1 = 0x01 ∨ b1 = 0xDA)
  | _ => false

/-- The decompression phase for one stream: inflate when the `Filter` is
`/FlateDecode` (or `/Fl`), or speculatively when there is no filter but
the zlib magic is present; a failed inflate falls back to the raw bytes.
Returns the decoded bytes and the `wasCompressed` flag. -/
def decodeStream (lib : PdfLib) (s : StreamObj) : List Nat × Bool :=
  match s.filter with
  | some fname =>
    if fname = "/FlateDecode" ∨ fname = "/Fl" then
      match lib.inflate s.raw with
      | some d => (d, true)
      | none => (s.raw, false)
    else (s.raw, false)
  | none =>
    if zlibMagic s.raw then
      match lib.inflate s.raw with
      | some d => (d, true)
      | none => (s.raw, false)
    else (s.raw, false)

/-- Process one stream object: skip when empty, skip when the
(decompressed) bytes fail the ASCII gate, otherwise decode to text, run
the stripper, and — only if at least one substitution occurred — build
the replacement stream (dropping `Filter` and updating `Length` when the
stream had been decompressed). -/
def stripStream (lib : PdfLib) (s : StreamObj) : Option (StreamObj × Nat) :=
  if s.raw.length = 0 then none
  else
    let dec := decodeStream lib s
    if ¬ isProbablyContentStreamText dec.1 then none
    else
      let text := decodeUtf8 dec.1
      let res := stripCommonBlackRectFills text
      if 0 < res.2 then
        let newBytes := encodeUtf8 res.1
        some (⟨if dec.2 then none else s.filter,
               if dec.2 then some newBytes.length else s.lengthEntry,
               newBytes⟩, res.2)
      else none

/-- One iteration of the stream loop: a non-stream entry is skipped;
when the stripper rewrote the stream, the page's whole `Contents` entry
is replaced by a single reference to the new stream. -/
def processStream (lib : PdfLib) (p : PageM) (o : Option StreamObj) : PageM × Nat :=
  match o with
  | none => (p, 0)
  | some s =>
    match stripStream lib s with
    | none => (p, 0)
    | some (ns, removed) =>
      ({ p with contents := ContentsEntry.single (some ns) }, removed)

/-- The capture of the stream list from the page's `Contents`
(`contents.asArray?.() ?? [contents]`). -/
def pageStreams : ContentsEntry → List (Option StreamObj)
  | ContentsEntry.noContents => []
  | ContentsEntry.single o => [o]
  | ContentsEntry.arr os => os

/-- The stream loop over the captured list, threading the page node and
accumulating `removedOverlayOpsEstimate`. -/
def runStreams (lib : PdfLib) : PageM → List (Option StreamObj) → PageM × Nat
  | p, [] => (p, 0)
  | p, o :: os =>
    let r1 := processStream lib p o
    let r2 := runStreams lib r1.1 os
    (r2.1, r1.2 + r2.2)

/-- The whole per-page stream phase (list captured once, before any
replacement). -/
def processPageStreams (lib : PdfLib) (p : PageM) : PageM × Nat :=
  runStreams lib p (pageStreams p.contents)

/-- One page of the cleaner: delete the `Annots` entry if present
(counting `removed_annots_pages`, and — only when an audit was supplied —
accumulating its `redact_annots` for this page), then run the stream
phase.  Returns `(page', redactInc, annotsPagesInc, overlayInc)`. -/
def processPage (lib : PdfLib) (audit : Option AuditLogM) (i : Nat) (p : PageM) :
    PageM × Nat × Nat × Nat :=
  let redactInc : Nat :=
    if p.hasAnnots then
      match audit with
      | some a =>
        match a.pages.get? i with
        | some pa => pa.signals.redact_annots
        | none => 0
      | none => 0
    else 0
  let annotInc : Nat := if p.hasAnnots then 1 else 0
  let p1 := if p.hasAnnots then { p with hasAnnots := false } else p
  let r := processPageStreams lib p1
  (r.1, redactInc, annotInc, r.2)

/-- The page loop, 0-based as in the source. -/
def processPages (lib : PdfLib) (audit : Option AuditLogM) :
    Nat → List PageM → List PageM × Nat × Nat × Nat
  | _, [] => ([], 0, 0, 0)
  | i, p :: ps =>
    let r := processPage lib audit i p
    let rest := processPages lib audit (i + 1) ps
    (r.1 :: rest.1, r.2.1 + rest.2.1, r.2.2.1 + rest.2.2.1, r.2.2.2 + rest.2.2.2)

/-- `cleanPdf(bytes, audit?)`: validate, parse, process every page,
serialize.  The error strings are the source's thrown messages
(`"PdfParseFailed"` stands for the exception propagated out of
`PDFDocument.load`). -/
def cleanPdf (lib : PdfLib) (bytes : List Nat) (audit : Option AuditLogM) :
    Except String (List Nat × CleanSummary) :=
  if bytes.length = 0 then Except.error "No PDF data provided"
  else if ¬ startsWithCP (decodeUtf8 (bytes.take 5)) pdfMagic then
    Except.error "Invalid PDF: missing PDF header"
  else
    match lib.parse bytes with
    | none => Except.error "PdfParseFailed"
    | some doc =>
      let r := processPages lib audit 0 doc.pages
      Except.ok (lib.save ⟨r.1⟩, ⟨r.2.1, r.2.2.1, r.2.2.2, cleanNote⟩)

/-! ## Lemmas and claim theorems -/

/-! ## Lemmas about the scorer -/

lemma anyOverlap_iff (rects : List Rect) (boxes : List Box) :
    anyOverlap rects boxes = true ↔
      ∃ r ∈ rects, ∃ t ∈ boxes,
        max r.x t.x < min (r.x + r.w) (t.x + t.w) ∧
        max r.y t.y < min (r.y + r.h) (t.y + t.h) := by
  simp [anyOverlap, intersectB, List.any_eq_true, Bool.and_eq_true, decide_eq_true_eq,
    sub_pos]

lemma aspect_iff (rects : List Rect) (hr : ∀ r ∈ rects, 0 < r.w ∧ 0 < r.h) :
    (rects.any fun r => decide (r.w / r.h ≥ 3) || decide (r.h / r.w ≥ 3)) = true ↔
      ∃ r ∈ rects, 3 * r.h ≤ r.w ∨ 3 * r.w ≤ r.h := by
  simp only [List.any_eq_true, Bool.or_eq_true, decide_eq_true_eq, ge_iff_le]
  constructor
  · rintro ⟨r, hm, h | h⟩
    · exact ⟨r, hm, Or.inl ((le_div_iff (hr r hm).2).mp h)⟩
    · exact ⟨r, hm, Or.inr ((le_div_iff (hr r hm).1).mp h)⟩
  · rintro ⟨r, hm, h | h⟩
    · exact ⟨r, hm, Or.inl ((le_div_iff (hr r hm).2).mpr h)⟩
    · exact ⟨r, hm, Or.inr ((le_div_iff (hr r hm).1).mpr h)⟩

/-- The verdict field is by construction the threshold test on the
confidence field. -/
lemma scoreAndRisk_risk_def (p : ScoreParams) :
    (scoreAndRisk p).risk
      = if (scoreAndRisk p).confidence ≥ 20 then Risk.flagged else Risk.none := rfl

lemma giant_iff (rects : List Rect) {pa : ℚ} (hpa : 0 < pa) :
    (rects.any fun r => decide (r.area / pa > 3 / 5)) = true ↔
      ∃ r ∈ rects, r.area > (3 / 5) * pa := by
  simp only [List.any_eq_true, decide_eq_true_eq, gt_iff_lt]
  constructor <;> rintro ⟨r, hm, h⟩
  · exact ⟨r, hm, (lt_div_iff hpa).mp h⟩
  · exact ⟨r, hm, (lt_div_iff hpa).mpr h⟩

/-! ## Lemmas about the reconstructor -/

lemma groupCandidate_w (H : ℚ) (st : DetectState) (g : ℚ × ℚ × ℚ × ℚ) :
    (groupCandidate H st g).w = (3 / 2) * |(groupNormTrans st g).2.2.1| := by
  rcases e : groupNormTrans st g with ⟨x, y, w, h⟩
  simp only [groupCandidate, convertToViewportRectangle, e]
  have h1 : (3 : ℚ) / 2 * (x + |w|) - 3 / 2 * x = (3 / 2) * |w| := by ring
  rw [h1, abs_of_nonneg (by positivity)]

lemma groupCandidate_h (H : ℚ) (st : DetectState) (g : ℚ × ℚ × ℚ × ℚ) :
    (groupCandidate H st g).h = (3 / 2) * |(groupNormTrans st g).2.2.2| := by
  rcases e : groupNormTrans st g with ⟨x, y, w, h⟩
  simp only [groupCandidate, convertToViewportRectangle, e]
  have h1 : (3 : ℚ) / 2 * (H - (y + |h|)) - 3 / 2 * (H - y) = -((3 / 2) * |h|) := by ring
  rw [h1, abs_neg, abs_of_nonneg (by positivity)]

lemma groupCandidate_area (H : ℚ) (st : DetectState) (g : ℚ × ℚ × ℚ × ℚ) :
    (groupCandidate H st g).area = (groupCandidate H st g).w * (groupCandidate H st g).h := by
  rcases e : groupNormTrans st g with ⟨x, y, w, h⟩
  simp only [groupCandidate, convertToViewportRectangle, e]

/-- Everything `groupToRect` guarantees about an emitted rectangle. -/
lemma groupToRect_props {W H : ℚ} {st : DetectState} {g : ℚ × ℚ × ℚ × ℚ} {r : Rect}
    (hr : groupToRect W H st g = some r) :
    r = groupCandidate H st g ∧
    isDark st = true ∧
    5 ≤ |(groupNormTrans st g).2.2.1| ∧
    5 ≤ |(groupNormTrans st g).2.2.2| ∧
    ¬ r.area / pageAreaQ W H > 3 / 5 ∧
    ¬ r.area < max (pageAreaQ W H * (1 / 2000)) 2000 := by
  simp only [groupToRect] at hr
  split_ifs at hr with h1 h2 h3 h4
  push_neg at h1
  have heq : groupCandidate H st g = r := by injection hr
  subst heq
  exact ⟨rfl, h2, h1.1, h1.2, h3, h4⟩

/-- Emitted rectangles have device-space sides at least 5
(in fact `15/2`). -/
lemma groupToRect_sides {W H : ℚ} {st : DetectState} {g : ℚ × ℚ × ℚ × ℚ} {r : Rect}
    (hr : groupToRect W H st g = some r) : 5 ≤ r.w ∧ 5 ≤ r.h := by
  obtain ⟨rfl, -, hw, hh, -, -⟩ := groupToRect_props hr
  rw [groupCandidate_w, groupCandidate_h]
  constructor <;> nlinarith

lemma dedupRects_subset {rs : List Rect} {seen : List (ℤ × ℤ × ℤ × ℤ)} {r : Rect}
    (h : r ∈ dedupRects rs seen) : r ∈ rs := by
  induction rs generalizing seen with
  | nil => simp [dedupRects] at h
  | cons a rs ih =>
    rw [dedupRects] at h
    split_ifs at h with hk
    · exact List.mem_cons_of_mem _ (ih h)
    · rcases List.mem_cons.mp h with h | h
      · exact h ▸ List.mem_cons_self _ _
      · exact List.mem_cons_of_mem _ (ih h)

lemma dedupRects_key_not_seen {rs : List Rect} {seen : List (ℤ × ℤ × ℤ × ℤ)} {r : Rect}
    (h : r ∈ dedupRects rs seen) : rectKey r ∉ seen := by
  induction rs generalizing seen with
  | nil => simp [dedupRects] at h
  | cons a rs ih =>
    rw [dedupRects] at h
    split_ifs at h with hk
    · exact ih h
    · rcases List.mem_cons.mp h with h | h
      · exact h ▸ hk
      · intro hmem
        exact ih h (List.mem_cons_of_mem _ hmem)

lemma dedupRects_pairwise (rs : List Rect) (seen : List (ℤ × ℤ × ℤ × ℤ)) :
    (dedupRects rs seen).Pairwise (fun a b => rectKey a ≠ rectKey b) := by
  induction rs generalizing seen with
  | nil => simp [dedupRects]
  | cons a rs ih =>
    rw [dedupRects]
    split_ifs with hk
    · exact ih seen
    · refine List.Pairwise.cons (fun b hb hab => ?_) (ih _)
      exact dedupRects_key_not_seen hb (hab ▸ List.mem_cons_self _ _)

lemma stepCoords_mem {W H : ℚ} {st : DetectState} {args : JsVal} {r : Rect}
    (h : r ∈ stepCoords W H st args) : ∃ g, groupToRect W H st g = some r := by
  unfold stepCoords at h
  rcases hc : coordsCandidate args with _ | cand
  · rw [hc] at h; cases h
  · rw [hc] at h
    obtain ⟨g, -, hg⟩ := List.mem_filterMap.mp h
    exact ⟨g, hg⟩

lemma runDetect_mem {W H : ℚ} {args : List JsVal} {st : DetectState} {r : Rect}
    (h : r ∈ runDetect W H args st) : ∃ st' g, groupToRect W H st' g = some r := by
  induction args generalizing st with
  | nil => cases h
  | cons a rest ih =>
    rw [runDetect] at h
    rcases List.mem_append.mp h with h | h
    · obtain ⟨g, hg⟩ := stepCoords_mem h
      exact ⟨_, g, hg⟩
    · exact ih h

/-- Every rectangle of `detectDarkRects` is the image of some 4-number
group under `groupToRect` at some loop state. -/
lemma detectDarkRects_mem {W H : ℚ} {args : List JsVal} {r : Rect}
    (h : r ∈ detectDarkRects W H args) : ∃ st g, groupToRect W H st g = some r :=
  runDetect_mem (dedupRects_subset h)

/-! ## Claim theorems: rectangle reconstructor -/

/-- C2.  Every rectangle emitted by `detectDarkRects` has device-space
sides at least 5, area at least `max(2000, 0.0005·page_area)`, area ratio
at most `0.6`, its dedup keys are pairwise distinct, and it originates
from a fill state that passed the near-black test (`isDark`, i.e. all RGB
channels ≤ 0.15 or gray ≤ 0.15). -/
theorem claim_C2_reconstructor_invariants (W H : ℚ) (args : List JsVal) :
    (detectDarkRects W H args).Pairwise (fun a b => rectKey a ≠ rectKey b) ∧
    ∀ r ∈ detectDarkRects W H args,
      5 ≤ r.w ∧ 5 ≤ r.h ∧
      max 2000 (pageAreaQ W H * (1 / 2000)) ≤ r.area ∧
      r.area / pageAreaQ W H ≤ 3 / 5 ∧
      ∃ st g, isDark st = true ∧ groupToRect W H st g = some r := by
  refine ⟨dedupRects_pairwise _ _, fun r hrm => ?_⟩
  obtain ⟨st, g, hg⟩ := detectDarkRects_mem hrm
  obtain ⟨-, hdk, -, -, hratio, hmin⟩ := groupToRect_props hg
  obtain ⟨hw, hh⟩ := groupToRect_sides hg
  refine ⟨hw, hh, ?_, not_lt.mp hratio, st, g, hdk, hg⟩
  rw [max_comm]
  exact not_lt.mp hmin

/-- C9.  On any rectangle list produced by `detectDarkRects` for the same
viewport, the scorer's test `r.area / pageArea > 0.6` never fires, so
`scoreAndRisk` agrees with the variant that lacks the −30 branch. -/
theorem claim_C9_giant_penalty_unreachable (args : List JsVal) (p : ScoreParams)
    (hrects : p.darkRects = detectDarkRects p.uw p.uh args) :
    (p.darkRects.any fun r => decide (r.area / pageAreaQ p.uw p.uh > 3 / 5)) = false ∧
    scoreAndRisk p = scoreAndRiskNoGiant p := by
  have hany : (p.darkRects.any fun r => decide (r.area / pageAreaQ p.uw p.uh > 3 / 5)) = false := by
    rw [List.any_eq_false]
    intro r hrm
    rw [hrects] at hrm
    obtain ⟨st, g, hg⟩ := detectDarkRects_mem hrm
    obtain ⟨-, -, -, -, hratio, -⟩ := groupToRect_props hg
    simpa using hratio
  exact ⟨hany, by simp only [scoreAndRisk, scoreAndRiskNoGiant, hany, Bool.false_eq_true,
    if_false]⟩

/-- C9 witness: a concrete instantiation (empty operator list). -/
theorem claim_C9_witness :
    (⟨true, 0, detectDarkRects 100 100 [], false, 0, 100, 100⟩ : ScoreParams).darkRects
        = detectDarkRects 100 100 [] ∧
    ((⟨true, 0, detectDarkRects 100 100 [], false, 0, 100, 100⟩ : ScoreParams).darkRects.any
        fun r => decide (r.area / pageAreaQ 100 100 > 3 / 5)) = false ∧
    scoreAndRisk ⟨true, 0, detectDarkRects 100 100 [], false, 0, 100, 100⟩
      = scoreAndRiskNoGiant ⟨true, 0, detectDarkRects 100 100 [], false, 0, 100, 100⟩ := by
  refine ⟨rfl, ?_⟩
  have h := claim_C9_giant_penalty_unreachable []
    ⟨true, 0, detectDarkRects 100 100 [], false, 0, 100, 100⟩ rfl
  exact h

/-- C6.  Coordinate-format detection: a group `(n0,n1,n2,n3)` is
reinterpreted as a corner pair exactly when
`n2 > n0 ∧ n3 > n1 ∧ n2 < 10000 ∧ n3 < 10000`; the reinterpretation
happens before the current translation is applied; `(10,20,200,300)`
becomes `(10,20,190,280)`; and through the full reconstructor on a
612×792 page this group (with a black gray fill set) yields the expected
device-space rectangle. -/
theorem claim_C6_corner_pair_detection :
    (∀ n0 n1 n2 n3 : ℚ,
      normalizeGroup (n0, n1, n2, n3) =
        if n2 > n0 ∧ n3 > n1 ∧ n2 < 10000 ∧ n3 < 10000
        then (n0, n1, n2 - n0, n3 - n1) else (n0, n1, n2, n3)) ∧
    (∀ (st : DetectState) (g : ℚ × ℚ × ℚ × ℚ),
      groupNormTrans st g =
        ((normalizeGroup g).1 + st.tx, (normalizeGroup g).2.1 + st.ty,
         (normalizeGroup g).2.2.1, (normalizeGroup g).2.2.2)) ∧
    normalizeGroup (10, 20, 200, 300) = (10, 20, 190, 280) ∧
    detectDarkRects 612 792
      [JsVal.arr [JsVal.num 0],
       JsVal.arr [JsVal.other,
         JsVal.arr [JsVal.num 10, JsVal.num 20, JsVal.num 200, JsVal.num 300]]]
      = [⟨15, 738, 285, 420, 119700⟩] := by
  refine ⟨fun n0 n1 n2 n3 => rfl, fun st g => ?_, by norm_num [normalizeGroup], ?_⟩
  · rcases e : normalizeGroup g with ⟨a, b, c, d⟩
    simp [groupNormTrans, e]
  · have h1 : groupToRect 612 792 ⟨none, some 0, 0, 0⟩ (10, 20, 200, 300)
        = some ⟨15, 738, 285, 420, 119700⟩ := by
      norm_num [groupToRect, groupCandidate, groupNormTrans, normalizeGroup,
        convertToViewportRectangle, isDark, isNearBlackGray, pageAreaQ, vpWidth, vpHeight,
        abs_of_nonneg]
    norm_num [detectDarkRects, runDetect, detectStep, stepTransform, stepColor, stepCoords,
      coordsCandidate, coordsCandidate.fallback, allNums, filterNums, groupsOf4,
      initDetectState, List.get?, h1, List.filterMap, dedupRects]

/-- C8 counterexample: on a 100×100 page the group `(0,0,100,60)` with a
black gray fill produces a rectangle whose device-space area is exactly
`0.6 · page_area`, and `detectDarkRects` emits it (the filter rejects
only `areaRatio > 0.6`, strictly). -/
theorem claim_C8_counterexample :
    detectDarkRects 100 100
      [JsVal.arr [JsVal.num 0],
       JsVal.arr [JsVal.other,
         JsVal.arr [JsVal.num 0, JsVal.num 0, JsVal.num 100, JsVal.num 60]]]
      = [⟨0, 60, 150, 90, 13500⟩] ∧
    (Rect.mk 0 60 150 90 13500).area = (3 / 5) * pageAreaQ 100 100 := by
  constructor
  · have h1 : groupToRect 100 100 ⟨none, some 0, 0, 0⟩ (0, 0, 100, 60)
        = some ⟨0, 60, 150, 90, 13500⟩ := by
      norm_num [groupToRect, groupCandidate, groupNormTrans, normalizeGroup,
        convertToViewportRectangle, isDark, isNearBlackGray, pageAreaQ, vpWidth, vpHeight,
        abs_of_nonneg]
    norm_num [detectDarkRects, runDetect, detectStep, stepTransform, stepColor, stepCoords,
      coordsCandidate, coordsCandidate.fallback, allNums, filterNums, groupsOf4,
      initDetectState, List.get?, h1, List.filterMap, dedupRects]
  · norm_num [pageAreaQ, vpWidth, vpHeight]

/-- C8 amended: a candidate whose area is exactly `0.6 · page_area` is not
rejected by the background filter — exclusion requires a ratio strictly
above `0.6` — so if the side, darkness and minimum-area filters pass, the
rectangle is emitted. -/
theorem claim_C8_amended (W H : ℚ) (st : DetectState) (g : ℚ × ℚ × ℚ × ℚ)
    (hside : ¬ (|(groupNormTrans st g).2.2.1| < 5 ∨ |(groupNormTrans st g).2.2.2| < 5))
    (hdark : isDark st = true)
    (hpa : 0 < pageAreaQ W H)
    (harea : (groupCandidate H st g).area = (3 / 5) * pageAreaQ W H)
    (hmin : ¬ (groupCandidate H st g).area < max (pageAreaQ W H * (1 / 2000)) 2000) :
    groupToRect W H st g = some (groupCandidate H st g) := by
  have hratio : ¬ (groupCandidate H st g).area / pageAreaQ W H > 3 / 5 := by
    rw [harea, mul_div_assoc, div_self (ne_of_gt hpa), mul_one]
    exact lt_irrefl _
  simp only [groupToRect]
  rw [if_neg hside, if_neg (by simp [hdark]), if_neg hratio, if_neg hmin]

/-- C8 amended, witness at the counterexample's concrete data. -/
theorem claim_C8_amended_witness :
    (¬ (|(groupNormTrans ⟨none, some 0, 0, 0⟩ (0, 0, 100, 60)).2.2.1| < 5 ∨
        |(groupNormTrans ⟨none, some 0, 0, 0⟩ (0, 0, 100, 60)).2.2.2| < 5)) ∧
    isDark ⟨none, some 0, 0, 0⟩ = true ∧
    (0 : ℚ) < pageAreaQ 100 100 ∧
    groupToRect 100 100 ⟨none, some 0, 0, 0⟩ (0, 0, 100, 60)
      = some (groupCandidate 100 ⟨none, some 0, 0, 0⟩ (0, 0, 100, 60)) := by
  have hside : ¬ (|(groupNormTrans (⟨none, some 0, 0, 0⟩ : DetectState) (0, 0, 100, 60)).2.2.1| < 5 ∨
      |(groupNormTrans (⟨none, some 0, 0, 0⟩ : DetectState) (0, 0, 100, 60)).2.2.2| < 5) := by
    norm_num [groupNormTrans, normalizeGroup, abs_of_nonneg]
  have hdark : isDark ⟨none, some 0, 0, 0⟩ = true := by
    norm_num [isDark, isNearBlackGray]
  have hpa : (0 : ℚ) < pageAreaQ 100 100 := by norm_num [pageAreaQ, vpWidth, vpHeight]
  have harea : (groupCandidate 100 (⟨none, some 0, 0, 0⟩ : DetectState) (0, 0, 100, 60)).area
      = (3 / 5) * pageAreaQ 100 100 := by
    norm_num [groupCandidate, groupNormTrans, normalizeGroup, convertToViewportRectangle,
      pageAreaQ, vpWidth, vpHeight, abs_of_nonneg]
  have hmin : ¬ (groupCandidate 100 (⟨none, some 0, 0, 0⟩ : DetectState) (0, 0, 100, 60)).area
      < max (pageAreaQ 100 100 * (1 / 2000)) 2000 := by
    norm_num [groupCandidate, groupNormTrans, normalizeGroup, convertToViewportRectangle,
      pageAreaQ, vpWidth, vpHeight, abs_of_nonneg]
  exact ⟨hside, hdark, hpa,
    claim_C8_amended 100 100 ⟨none, some 0, 0, 0⟩ (0, 0, 100, 60) hside hdark hpa harea hmin⟩

/-! ## Claim theorem: overlay stripper and text blocks (C3) -/

/-- C3, evaluated at the failing input.  The content stream
`q / 0 g / ` `BT (secret) Tj ET` ` / 1 2 m / h / f / Q` (with the `BT`
line indented one space) contains the text block `BT (secret) Tj ET`,
yet `stripCommonBlackRectFills` replaces the whole region — pattern D's
`(?!BT)` guard is applied only at the start of each intermediate line,
so a mid-line `BT` is consumed by `[^\n]{0,200}`, and the output no
longer contains the `BT … ET` range.  This contradicts the claim (and
the source's own comment "Must NOT contain BT (begin text) to avoid
matching text blocks"). -/
theorem claim_C3_failing_input_eval :
    hasSub (cps "q\n0 g\n BT (secret) Tj ET\n1 2 m\nh\nf\nQ") (cps "BT (secret) Tj ET")
      = true ∧
    (stripCommonBlackRectFills (cps "q\n0 g\n BT (secret) Tj ET\n1 2 m\nh\nf\nQ")).1
      = cps "\n% stripped_suspected_black_rect_fill_path\n" ∧
    (stripCommonBlackRectFills (cps "q\n0 g\n BT (secret) Tj ET\n1 2 m\nh\nf\nQ")).2 = 1 ∧
    hasSub (stripCommonBlackRectFills (cps "q\n0 g\n BT (secret) Tj ET\n1 2 m\nh\nf\nQ")).1
      (cps "BT") = false := by
  refine ⟨by decide, by decide, by decide, by decide⟩

/-- An ASCII code point in the decoder output comes from the identical
byte: every non-ASCII lead byte contributes a first code point that is
either a valid multi-byte scalar (≥ `0x80`) or U+FFFD. -/
lemma decodeGo_ascii_cons {f b c : Nat} {bs cs : List Nat}
    (h : decodeUtf8Go (f + 1) (b :: bs) = c :: cs) (hc : c < 0x80) :
    b = c ∧ decodeUtf8Go f bs = cs := by
  simp only [decodeUtf8Go] at h
  by_cases h1 : b < 0x80
  · rw [if_pos h1] at h
    injection h with h5 h6
    exact ⟨h5, h6⟩
  exfalso
  rw [if_neg h1] at h
  by_cases h2 : 0xC2 ≤ b ∧ b ≤ 0xDF
  · rw [if_pos h2] at h
    rcases bs with _ | ⟨b2, bs2⟩ <;> simp only [] at h
    · injection h with h5 _; simp only [repl] at h5; omega
    · by_cases hco : isCont b2
      · rw [if_pos hco] at h
        injection h with h5 _
        omega
      · rw [if_neg hco] at h
        injection h with h5 _; simp only [repl] at h5; omega
  rw [if_neg h2] at h
  by_cases h3 : 0xE0 ≤ b ∧ b ≤ 0xEF
  · rw [if_pos h3] at h
    rcases bs with _ | ⟨b2, bs2⟩ <;> simp only [] at h
    · injection h with h5 _; simp only [repl] at h5; omega
    by_cases hv : valid3Second b b2
    · rw [if_pos hv] at h
      rcases bs2 with _ | ⟨b3, bs3⟩ <;> simp only [] at h
      · injection h with h5 _; simp only [repl] at h5; omega
      by_cases hc3 : isCont b3
      · rw [if_pos hc3] at h
        injection h with h5 _
        by_cases hE : b = 0xE0
        · have hb2 : 0xA0 ≤ b2 := by
            rw [hE] at hv
            simp only [valid3Second] at hv
            norm_num at hv
            exact hv.1
          omega
        · omega
      · rw [if_neg hc3] at h
        injection h with h5 _; simp only [repl] at h5; omega
    · rw [if_neg hv] at h
      injection h with h5 _; simp only [repl] at h5; omega
  rw [if_neg h3] at h
  by_cases h4 : 0xF0 ≤ b ∧ b ≤ 0xF4
  · rw [if_pos h4] at h
    rcases bs with _ | ⟨b2, bs2⟩ <;> simp only [] at h
    · injection h with h5 _; simp only [repl] at h5; omega
    by_cases hv : valid4Second b b2
    · rw [if_pos hv] at h
      rcases bs2 with _ | ⟨b3, bs3⟩ <;> simp only [] at h
      · injection h with h5 _; simp only [repl] at h5; omega
      by_cases hc3 : isCont b3
      · rw [if_pos hc3] at h
        rcases bs3 with _ | ⟨b4, bs4⟩ <;> simp only [] at h
        · injection h with h5 _; simp only [repl] at h5; omega
        by_cases hc4 : isCont b4
        · rw [if_pos hc4] at h
          injection h with h5 _
          by_cases hF : b = 0xF0
          · have hb2 : 0x90 ≤ b2 := by
              rw [hF] at hv
              simp only [valid4Second] at hv
              norm_num at hv
              exact hv.1
            omega
          · omega
        · rw [if_neg hc4] at h
          injection h with h5 _; simp only [repl] at h5; omega
      · rw [if_neg hc3] at h
        injection h with h5 _; simp only [repl] at h5; omega
    · rw [if_neg hv] at h
      injection h with h5 _; simp only [repl] at h5; omega
  · rw [if_neg h4] at h
    injection h with h5 _; simp only [repl] at h5; omega

/-- If the decoded text starts with a given all-ASCII string, then the
byte input starts with the same bytes. -/
lemma decode_take_ascii :
    ∀ (ms : List Nat), (∀ m ∈ ms, m < 0x80) →
    ∀ (f : Nat) (bs : List Nat), (decodeUtf8Go f bs).take ms.length = ms →
    bs.take ms.length = ms := by
  intro ms
  induction ms with
  | nil => intro _ _ bs _; simp
  | cons m ms ih =>
    intro hms f bs h
    rcases bs with _ | ⟨b, bs'⟩
    · rcases f with _ | f' <;> simp [decodeUtf8Go] at h
    rcases f with _ | f'
    · simp [decodeUtf8Go] at h
    rcases e : decodeUtf8Go (f' + 1) (b :: bs') with _ | ⟨c, cs⟩
    · rw [e] at h; simp at h
    rw [e] at h
    rw [List.length_cons, List.take_succ_cons] at h
    injection h with h1 h2
    have hm : c < 0x80 := by rw [h1]; exact hms m (List.mem_cons_self _ _)
    obtain ⟨hb, hrec⟩ := decodeGo_ascii_cons e hm
    rw [List.length_cons, List.take_succ_cons,
      ih (fun x hx => hms x (List.mem_cons_of_mem _ hx)) f' bs' (hrec ▸ h2), hb, h1]

/-- Specialisation to the `%PDF-` magic. -/
lemma decode_magic {bs : List Nat}
    (h : (decodeUtf8 bs).take pdfMagic.length = pdfMagic) :
    bs.take pdfMagic.length = pdfMagic :=
  decode_take_ascii pdfMagic (by decide) bs.length bs h

/-- C4.  The analyzer entry point fails with `EmptyInput` ("File is
empty") on zero-length input, and with `MalformedPdf` ("Not a valid PDF
(missing header)") when the bytes do not begin with `%PDF-`. -/
theorem claim_C4_entry_validation {α : Type} (analyze : List Nat → Except String α)
    (bytes : List Nat) :
    (bytes = [] → processAnalyze analyze bytes = .error "File is empty") ∧
    (bytes ≠ [] → bytes.take 5 ≠ pdfMagic →
      processAnalyze analyze bytes = .error "Not a valid PDF (missing header)") := by
  constructor
  · rintro rfl
    simp [processAnalyze]
  · intro hne hmagic
    have hlen : bytes.length ≠ 0 := fun h => hne (List.length_eq_zero.mp h)
    have hgate : ¬ startsWithCP (decodeUtf8 (bytes.take 5)) pdfMagic = true := by
      intro hsw
      apply hmagic
      have htake : (decodeUtf8 (bytes.take 5)).take pdfMagic.length = pdfMagic := by
        simpa [startsWithCP] using hsw
      have := decode_magic htake
      have h5 : pdfMagic.length = 5 := by decide
      rw [h5, List.take_take, min_self] at this
      exact this
    simp only [processAnalyze, if_neg hlen]
    rw [if_pos (by simpa using hgate)]

/-- C4 witness: both error branches at concrete inputs. -/
theorem claim_C4_witness :
    processAnalyze (fun _ => Except.ok ()) [] = .error "File is empty" ∧
    processAnalyze (fun _ => Except.ok ()) [1, 2, 3] =
      .error "Not a valid PDF (missing header)" :=
  ⟨(claim_C4_entry_validation (fun _ => Except.ok ()) []).1 rfl,
   (claim_C4_entry_validation (fun _ => Except.ok ()) [1, 2, 3]).2 (by decide) (by decide)⟩

/-! ## Claim theorems: risk scorer -/

set_option maxHeartbeats 1600000 in
/-- C1.  For an analysed page (positive page area, rectangles with
positive sides — both guaranteed by `detectDarkRects`), the confidence
computed by `scoreAndRisk` equals the additive score of the claim,
clamped to `[0, 100]`, and the verdict is `flagged` iff
`confidence ≥ 20`. -/
theorem claim_C1_score_and_risk (hasText : Bool) (textChars : Nat) (rects : List Rect)
    (boxes : List Box) (redact : Nat) (uw uh : ℚ)
    (hpa : 0 < pageAreaQ uw uh)
    (hr : ∀ r ∈ rects, 0 < r.w ∧ 0 < r.h) :
    (scoreAndRisk ⟨hasText, textChars, rects, anyOverlap rects boxes, redact, uw, uh⟩).confidence
      = clampI (specScore hasText rects boxes redact uw uh) 0 100 ∧
    ((scoreAndRisk ⟨hasText, textChars, rects, anyOverlap rects boxes, redact, uw, uh⟩).risk
        = Risk.flagged ↔
      20 ≤ (scoreAndRisk
        ⟨hasText, textChars, rects, anyOverlap rects boxes, redact, uw, uh⟩).confidence) := by
  have e1 := anyOverlap_iff rects boxes
  have e2 := aspect_iff rects hr
  have e3 := giant_iff rects hpa
  constructor
  · simp only [scoreAndRisk, specScore, ← e1, ← e2, ← e3, clampI]
    cases hasText <;> split_ifs <;> omega
  · rw [scoreAndRisk_risk_def]
    split_ifs with h
    · simp [h]
    · simp [h]

/-- C1 witness: one page with a redact annotation and nothing else. -/
theorem claim_C1_witness :
    (0 : ℚ) < pageAreaQ 100 100 ∧
    (scoreAndRisk ⟨true, 30, [], anyOverlap [] [], 1, 100, 100⟩).confidence
      = clampI (specScore true [] [] 1 100 100) 0 100 ∧
    ((scoreAndRisk ⟨true, 30, [], anyOverlap [] [], 1, 100, 100⟩).risk = Risk.flagged ↔
      20 ≤ (scoreAndRisk ⟨true, 30, [], anyOverlap [] [], 1, 100, 100⟩).confidence) := by
  have hpa : (0 : ℚ) < pageAreaQ 100 100 := by norm_num [pageAreaQ, vpWidth, vpHeight]
  have h := claim_C1_score_and_risk true 30 [] [] 1 100 100 hpa (by simp)
  exact ⟨hpa, h.1, h.2⟩

/-! ## Claim theorems: the cleaner -/

/-- Everything but the redact estimate is computed without looking at
the audit. -/
lemma processPage_audit_indep (lib : PdfLib) (a1 a2 : Option AuditLogM) (i : Nat)
    (p : PageM) :
    (processPage lib a1 i p).1 = (processPage lib a2 i p).1 ∧
    (processPage lib a1 i p).2.2 = (processPage lib a2 i p).2.2 :=
  ⟨rfl, rfl⟩

lemma processPages_audit_indep (lib : PdfLib) (a1 a2 : Option AuditLogM) :
    ∀ (ps : List PageM) (i : Nat),
      (processPages lib a1 i ps).1 = (processPages lib a2 i ps).1 ∧
      (processPages lib a1 i ps).2.2 = (processPages lib a2 i ps).2.2 := by
  intro ps
  induction ps with
  | nil => intro i; exact ⟨rfl, rfl⟩
  | cons p ps ih =>
    intro i
    obtain ⟨h1, h2⟩ := processPage_audit_indep lib a1 a2 i p
    obtain ⟨h3, h4⟩ := ih (i + 1)
    constructor
    · simp only [processPages]
      rw [h1, h3]
    · simp only [processPages]
      rw [h2, h4]

/-- C5.  For fixed bytes, `cleanPdf` returns the same cleaned bytes,
`removed_annots_pages`, `removed_overlay_ops_estimate` and `note` for
every choice of the (optional) audit argument: the audit feeds only
`removed_redact_annots_estimate`. -/
theorem claim_C5_audit_noninterference (lib : PdfLib) (bytes : List Nat)
    (a1 a2 : Option AuditLogM) :
    (cleanPdf lib bytes a1).map
      (fun r => (r.1, r.2.removed_annots_pages, r.2.removed_overlay_ops_estimate, r.2.note)) =
    (cleanPdf lib bytes a2).map
      (fun r => (r.1, r.2.removed_annots_pages, r.2.removed_overlay_ops_estimate, r.2.note)) := by
  unfold cleanPdf
  split_ifs with h1 h2
  · rfl
  · cases hp : lib.parse bytes with
    | none => rfl
    | some doc =>
      obtain ⟨h3, h4⟩ := processPages_audit_indep lib a1 a2 doc.pages 0
      simp only [Except.map]
      rw [h3, h4]
  · rfl

/-- C7 counterexample: a 10-byte stream with exactly seven qualifying
bytes — ratio exactly 70% — fails `isProbablyContentStreamText` (the
gate is strict `> 0.7`), so the cleaner leaves it untouched instead of
being eligible for rewriting. -/
theorem claim_C7_counterexample :
    (asciiCount [65, 65, 65, 65, 65, 65, 65, 200, 200, 200] : ℚ) /
        (max 1 ([65, 65, 65, 65, 65, 65, 65, 200, 200, 200] : List Nat).length : ℚ)
      = 7 / 10 ∧
    isProbablyContentStreamText [65, 65, 65, 65, 65, 65, 65, 200, 200, 200] = false ∧
    processStream ⟨fun _ => none, fun _ => none, fun _ => []⟩
        ⟨false, ContentsEntry.noContents⟩
        (some ⟨none, none, [65, 65, 65, 65, 65, 65, 65, 200, 200, 200]⟩)
      = (⟨false, ContentsEntry.noContents⟩, 0) := by
  have hcount : asciiCount [65, 65, 65, 65, 65, 65, 65, 200, 200, 200] = 7 := by decide
  have hgate : isProbablyContentStreamText [65, 65, 65, 65, 65, 65, 65, 200, 200, 200]
      = false := by
    simp only [isProbablyContentStreamText, hcount, decide_eq_false_iff_not, not_lt]
    norm_num
  have hdec : decodeStream ⟨fun _ => none, fun _ => none, fun _ => []⟩
      ⟨none, none, [65, 65, 65, 65, 65, 65, 65, 200, 200, 200]⟩
      = ([65, 65, 65, 65, 65, 65, 65, 200, 200, 200], false) := by decide
  refine ⟨by rw [hcount]; norm_num, hgate, ?_⟩
  have hstrip : stripStream ⟨fun _ => none, fun _ => none, fun _ => []⟩
      ⟨none, none, [65, 65, 65, 65, 65, 65, 65, 200, 200, 200]⟩ = none := by
    simp only [stripStream, hdec, hgate]
    norm_num
  simp only [processStream, hstrip]

/-- C7 amended: any content stream whose (decompressed) bytes are at
most 70% tab/newline/CR/printable-ASCII is left byte-for-byte untouched
(the page node is unchanged and the overlay estimate is 0); eligibility
for rewriting requires strictly more than 70%. -/
theorem claim_C7_amended (lib : PdfLib) (p : PageM) (s : StreamObj)
    (h : (asciiCount (decodeStream lib s).1 : ℚ) /
        (max 1 (decodeStream lib s).1.length : ℚ) ≤ 7 / 10) :
    processStream lib p (some s) = (p, 0) := by
  have hgate : isProbablyContentStreamText (decodeStream lib s).1 = false := by
    simp only [isProbablyContentStreamText, decide_eq_false_iff_not, not_lt]
    exact h
  have hstrip : stripStream lib s = none := by
    simp only [stripStream, hgate]
    split_ifs <;> first | rfl | simp_all
  simp only [processStream, hstrip]

/-- C7 amended, witness: an all-non-ASCII stream is untouched. -/
theorem claim_C7_amended_witness :
    (asciiCount (decodeStream ⟨fun _ => none, fun _ => none, fun _ => []⟩
          ⟨none, none, [200, 200, 200]⟩).1 : ℚ) /
        (max 1 (decodeStream ⟨fun _ => none, fun _ => none, fun _ => []⟩
          ⟨none, none, [200, 200, 200]⟩).1.length : ℚ) ≤ 7 / 10 ∧
    processStream ⟨fun _ => none, fun _ => none, fun _ => []⟩
        ⟨false, ContentsEntry.noContents⟩ (some ⟨none, none, [200, 200, 200]⟩)
      = (⟨false, ContentsEntry.noContents⟩, 0) := by
  have hdec : decodeStream ⟨fun _ => none, fun _ => none, fun _ => []⟩
      ⟨none, none, [200, 200, 200]⟩ = ([200, 200, 200], false) := by decide
  have h : (asciiCount (decodeStream ⟨fun _ => none, fun _ => none, fun _ => []⟩
        ⟨none, none, [200, 200, 200]⟩).1 : ℚ) /
      (max 1 (decodeStream ⟨fun _ => none, fun _ => none, fun _ => []⟩
        ⟨none, none, [200, 200, 200]⟩).1.length : ℚ) ≤ 7 / 10 := by
    rw [hdec]
    norm_num [asciiCount]
  exact ⟨h, claim_C7_amended _ _ _ h⟩

/-- A stream iteration that contributed a positive removal count has set
the page's `Contents` to a single (new) stream. -/
lemma processStream_pos {lib : PdfLib} {p : PageM} {o : Option StreamObj}
    (h : 0 < (processStream lib p o).2) :
    ∃ s, (processStream lib p o).1.contents = ContentsEntry.single (some s) := by
  rcases o with _ | s
  · simp [processStream] at h
  · rcases hs : stripStream lib s with _ | ⟨ns, removed⟩
    · rw [processStream, hs] at h
      simp at h
    · rw [processStream, hs]
      exact ⟨ns, rfl⟩

/-- The stream loop either leaves the `Contents` entry alone or sets it
to a single stream. -/
lemma runStreams_contents (lib : PdfLib) :
    ∀ (os : List (Option StreamObj)) (p : PageM),
      (runStreams lib p os).1.contents = p.contents ∨
      ∃ s, (runStreams lib p os).1.contents = ContentsEntry.single (some s) := by
  intro os
  induction os with
  | nil => intro p; exact Or.inl rfl
  | cons o os ih =>
    intro p
    simp only [runStreams]
    rcases ih (processStream lib p o).1 with h | h
    · rcases o with _ | s
      · left
        rw [h]
        simp [processStream]
      · rcases hs : stripStream lib s with _ | ⟨ns, removed⟩
        · left
          rw [h, processStream, hs]
        · right
          refine ⟨ns, ?_⟩
          rw [h, processStream, hs]
    · right
      exact h

/-- If the loop removed anything, the final `Contents` is a single
stream. -/
lemma runStreams_pos (lib : PdfLib) :
    ∀ (os : List (Option StreamObj)) (p : PageM),
      0 < (runStreams lib p os).2 →
      ∃ s, (runStreams lib p os).1.contents = ContentsEntry.single (some s) := by
  intro os
  induction os with
  | nil => intro p h; simp [runStreams] at h
  | cons o os ih =>
    intro p h
    simp only [runStreams] at h ⊢
    by_cases h2 : 0 < (runStreams lib (processStream lib p o).1 os).2
    · exact ih _ h2
    · have h1 : 0 < (processStream lib p o).2 := by omega
      obtain ⟨s, hs⟩ := processStream_pos h1
      rcases runStreams_contents lib os (processStream lib p o).1 with hc | hc
      · exact ⟨s, by rw [hc, hs]⟩
      · exact hc

/-- C10.  If a page's `Contents` is an array and the stream phase
rewrote anything (positive overlay estimate), the page's whole
`Contents` entry ends up a single reference to a rewritten stream — in
particular it is no longer the original array, so the array's other
streams are no longer referenced by the page's `Contents`. -/
theorem claim_C10_single_replacement (lib : PdfLib) (p : PageM)
    (os : List (Option StreamObj)) (hc : p.contents = ContentsEntry.arr os)
    (hn : 0 < (processPageStreams lib p).2) :
    ∃ s, (processPageStreams lib p).1.contents = ContentsEntry.single (some s) ∧
      (processPageStreams lib p).1.contents ≠ ContentsEntry.arr os := by
  unfold processPageStreams at hn ⊢
  obtain ⟨s, hs⟩ := runStreams_pos lib (pageStreams p.contents) p hn
  exact ⟨s, hs, by rw [hs]; intro hab; cases hab⟩

/-- C10 witness: a one-element `Contents` array whose stream is a plain
A-pattern black-rectangle fill; the stripper rewrites it and the page's
`Contents` becomes a single stream. -/
theorem claim_C10_witness :
    (⟨false, ContentsEntry.arr [some ⟨none, none, cps "0 0 0 rg\n1 2 3 4 re\nf"⟩]⟩ :
        PageM).contents
      = ContentsEntry.arr [some ⟨none, none, cps "0 0 0 rg\n1 2 3 4 re\nf"⟩] ∧
    0 < (processPageStreams ⟨fun _ => none, fun _ => none, fun _ => []⟩
        ⟨false, ContentsEntry.arr [some ⟨none, none, cps "0 0 0 rg\n1 2 3 4 re\nf"⟩]⟩).2 ∧
    ∃ s, (processPageStreams ⟨fun _ => none, fun _ => none, fun _ => []⟩
        ⟨false, ContentsEntry.arr [some ⟨none, none, cps "0 0 0 rg\n1 2 3 4 re\nf"⟩]⟩).1.contents
        = ContentsEntry.single (some s) ∧
      (processPageStreams ⟨fun _ => none, fun _ => none, fun _ => []⟩
        ⟨false, ContentsEntry.arr [some ⟨none, none, cps "0 0 0 rg\n1 2 3 4 re\nf"⟩]⟩).1.contents
        ≠ ContentsEntry.arr [some ⟨none, none, cps "0 0 0 rg\n1 2 3 4 re\nf"⟩] := by
  have hcount : asciiCount (cps "0 0 0 rg\n1 2 3 4 re\nf") = 21 := by decide
  have hlen : (cps "0 0 0 rg\n1 2 3 4 re\nf").length = 21 := by decide
  have hgate : isProbablyContentStreamText (cps "0 0 0 rg\n1 2 3 4 re\nf") = true := by
    simp only [isProbablyContentStreamText, hcount, hlen, decide_eq_true_eq]
    norm_num
  have hdec : decodeStream ⟨fun _ => none, fun _ => none, fun _ => []⟩
      ⟨none, none, cps "0 0 0 rg\n1 2 3 4 re\nf"⟩
      = (cps "0 0 0 rg\n1 2 3 4 re\nf", false) := by decide
  have hstr : stripCommonBlackRectFills (decodeUtf8 (cps "0 0 0 rg\n1 2 3 4 re\nf"))
      = (replFill, 1) := by decide
  have hss : stripStream ⟨fun _ => none, fun _ => none, fun _ => []⟩
      ⟨none, none, cps "0 0 0 rg\n1 2 3 4 re\nf"⟩
      = some (⟨none, none, encodeUtf8 replFill⟩, 1) := by
    simp only [stripStream, hdec, hgate, hstr, hlen]
    norm_num
  have hrun : processPageStreams ⟨fun _ => none, fun _ => none, fun _ => []⟩
      ⟨false, ContentsEntry.arr [some ⟨none, none, cps "0 0 0 rg\n1 2 3 4 re\nf"⟩]⟩
      = (⟨false, ContentsEntry.single (some ⟨none, none, encodeUtf8 replFill⟩)⟩, 1) := by
    simp only [processPageStreams, pageStreams, runStreams, processStream, hss]
  refine ⟨rfl, by rw [hrun]; norm_num, ?_⟩
  exact claim_C10_single_replacement _ _ _ rfl (by rw [hrun]; norm_num)

end RedactCheck
